import Mathlib

/-!
Shallow embedding of the abuse-prevention core of the `tbot` repository:
`src/security.py` (class `BotSecurityMonitor`) and the security-relevant
control flow of `src/bot.py` (`refresh_command`).

Timestamps (`time.time()` / `datetime.now()` in the source) are modelled as
integers (seconds); the source uses only the linear order on clock readings
and subtraction of window lengths, so integer-valued time is a faithful
discretisation.  A Python `deque(maxlen=10)` is modelled as a list that keeps
only its 10 rightmost elements on append; Python `set`s become `Finset ℤ`;
the logging calls have no observable state effect.
-/

namespace TBot

/-- The fixed denylist of suspicious username substrings
(`src/security.py`, line 104). -/
def suspicious_patterns : List String :=
  ["bot", "spam", "scam", "hack", "premium", "gift"]

/-- The needle is an initial segment of the haystack (helper for the Python
substring test `pattern in username_lower`). -/
def hasLead : List Char → List Char → Bool
  | [], _ => true
  | _ :: _, [] => false
  | a :: n, b :: h => if a = b then hasLead n h else false

/-- The needle occurs contiguously somewhere in the haystack: the Python
substring operator `in` on strings. -/
def hasSub (n : List Char) : List Char → Bool
  | [] => n.isEmpty
  | b :: h => hasLead n (b :: h) || hasSub n h

/-- A Telegram user object as consumed by `validate_user_data`: the id, the
`is_bot` flag, and the optional username.  `None` and the empty string are
both falsy in Python, so `username` is an `Option String` and the empty
string is handled separately. -/
structure TgUser where
  id : ℤ
  is_bot : Bool
  username : Option String

/-- Embedding of `src/security.py` `validate_user_data` (lines 92-110): an absent user is
invalid; a bot user is invalid; a username containing a denylist substring
case-insensitively is invalid; everything else is valid.  The embedding is a
total function, matching the source, which never raises. -/
def validate_user_data : Option TgUser → Bool
  | none => false
  | some u =>
    if u.is_bot then false
    else
      match u.username with
      | none => true
      | some name =>
        if name = "" then true
        else if suspicious_patterns.any
            (fun p => hasSub p.toList (name.toList.map Char.toLower)) then false
        else true

/-- The mutable state of `BotSecurityMonitor` (`src/security.py`, lines
14-31).  `start_time` is omitted: it is only read to print uptime. -/
structure Monitor where
  user_requests : ℤ → List ℤ
  request_patterns : ℤ → List (String × ℤ)
  suspicious_users : Finset ℤ
  blocked_users : Finset ℤ
  total_requests : ℕ
  blocked_requests : ℕ
  suspicious_activity : ℕ

/-- A fresh monitor (`BotSecurityMonitor.__init__`): empty defaultdicts,
empty sets, zeroed counters. -/
def Monitor.init : Monitor :=
  { user_requests := fun _ => []
    request_patterns := fun _ => []
    suspicious_users := ∅
    blocked_users := ∅
    total_requests := 0
    blocked_requests := 0
    suspicious_activity := 0 }

/-- Append to a `deque(maxlen=10)`: the new element goes on the right and
only the 10 rightmost elements are kept (the oldest is silently dropped once
10 are stored). -/
def dequeAppend (l : List ℤ) (x : ℤ) : List ℤ :=
  let l2 := l ++ [x]
  if 10 < l2.length then l2.drop (l2.length - 10) else l2

/-- Embedding of `src/security.py` `is_rate_limited` (lines 33-50), acting on the deque of one user.
Behaviour: pop timestamps strictly older than `now - window_minutes*60` from the
left, return `true` without appending if at least `max_requests` remain,
otherwise append `now` and return `false`. -/
def rateLimitStep (hist : List ℤ) (now : ℤ) (max_requests window_minutes : ℕ) :
    Bool × List ℤ :=
  let window_start := now - (window_minutes : ℤ) * 60
  let cleaned := hist.dropWhile (fun t => t < window_start)
  if max_requests ≤ cleaned.length then (true, cleaned)
  else (false, dequeAppend cleaned now)

/-- Lifting of `is_rate_limited` to monitor level: only the deque of the calling user is
touched. -/
def Monitor.is_rate_limited (m : Monitor) (user_id : ℤ) (now : ℤ)
    (max_requests window_minutes : ℕ) : Bool × Monitor :=
  let r := rateLimitStep (m.user_requests user_id) now max_requests window_minutes
  (r.1, { m with
            user_requests := fun u => if u = user_id then r.2 else m.user_requests u })

/-- Embedding of `src/security.py` `check_suspicious_activity` (lines 52-80): record
`(command, now)`, keep only entries with `ts > now - 3600`, then flag the
user and return `true` if more than 20 entries remain in the trailing hour,
or if more than 10 of them lie within the trailing 5 minutes; otherwise
return `false`.  The pruned pattern list is stored in every branch. -/
def Monitor.check_suspicious_activity (m : Monitor) (user_id : ℤ)
    (command : String) (now : ℤ) : Bool × Monitor :=
  let patterns := ((m.request_patterns user_id) ++ [(command, now)]).filter
    (fun p => now - 3600 < p.2)
  let m1 := { m with
                request_patterns :=
                  fun u => if u = user_id then patterns else m.request_patterns u }
  if 20 < patterns.length then
    (true, { m1 with suspicious_users := insert user_id m1.suspicious_users })
  else
    let recent := patterns.filter (fun p => now - 300 < p.2)
    if 10 < recent.length then
      (true, { m1 with suspicious_users := insert user_id m1.suspicious_users })
    else (false, m1)

/-- Embedding of `src/security.py` `is_user_blocked` (lines 82-84): pure set-membership
query, no side effect. -/
def Monitor.is_user_blocked (m : Monitor) (user_id : ℤ) : Bool :=
  decide (user_id ∈ m.blocked_users)

/-- Embedding of `src/security.py` `block_user` (lines 86-90): insert into the blocked
set (idempotent, it is a set) and increment `blocked_requests`.  The reason
is only logged. -/
def Monitor.block_user (m : Monitor) (user_id : ℤ) (_reason : String) : Monitor :=
  { m with blocked_users := insert user_id m.blocked_users
           blocked_requests := m.blocked_requests + 1 }

/-- Embedding of `src/security.py` `log_security_stats` (lines 112-122): it only emits log
lines; the monitor state is unchanged. -/
def Monitor.log_security_stats (m : Monitor) : Monitor := m

/-- Run a sequence of `is_rate_limited` calls against the deque of one user; each
call is `(now, max_requests, window_minutes)`.  Returns the per-call verdicts
and the final deque. -/
def runRateLimit : List ℤ → List (ℤ × ℕ × ℕ) → List Bool × List ℤ
  | hist, [] => ([], hist)
  | hist, (now, mx, w) :: rest =>
    let r := rateLimitStep hist now mx w
    let t := runRateLimit r.2 rest
    (r.1 :: t.1, t.2)

/-- Run a sequence of `check_suspicious_activity` calls for one user; each
call is `(command, now)`.  Returns the per-call verdicts and the final
monitor. -/
def runSuspicious (user_id : ℤ) : Monitor → List (String × ℤ) → List Bool × Monitor
  | m, [] => ([], m)
  | m, (cmd, now) :: rest =>
    let r := m.check_suspicious_activity user_id cmd now
    let t := runSuspicious user_id r.2 rest
    (r.1 :: t.1, t.2)

/-- The security control flow of `src/bot.py` `refresh_command` (lines
180-206) for an authorized human (non-bot) caller: blocked users are dropped
silently, then the `(max_requests=3, window_minutes=1)` throttle replies and
returns on denial, then `check_suspicious_activity` runs (advisory only),
then `total_requests` is incremented and the request is served.  The result
is `true` exactly when the request is served. -/
def refresh_command (m : Monitor) (user_id : ℤ) (now : ℤ) : Bool × Monitor :=
  if m.is_user_blocked user_id then (false, m)
  else
    let r := m.is_rate_limited user_id now 3 1
    if r.1 then (false, r.2)
    else
      let s := r.2.check_suspicious_activity user_id "refresh_command" now
      (true, { s.2 with total_requests := s.2.total_requests + 1 })

/-- Run a sequence of `refresh_command` invocations for one user at the
given times. -/
def runRefresh (user_id : ℤ) : Monitor → List ℤ → List Bool × Monitor
  | m, [] => ([], m)
  | m, now :: rest =>
    let r := refresh_command m user_id now
    let t := runRefresh user_id r.2 rest
    (r.1 :: t.1, t.2)

/-- A concrete monitor holding one stale and one fresh timestamp for user 1,
used to instantiate the frame theorem about rejected throttle calls. -/
def frameMon : Monitor :=
  { Monitor.init with user_requests := fun u => if u = 1 then [-100, 0] else [] }

/-- A concrete monitor with ten recorded patterns for user 1 at time 0, used
to instantiate the burst-trigger theorem. -/
def burstMon : Monitor :=
  { Monitor.init with
      request_patterns := fun u => if u = 1 then List.replicate 10 ("x", 0) else [] }

/-- A concrete monitor with user 5 already flagged as suspicious, used to
instantiate the one-way-latch theorem. -/
def latchMon : Monitor :=
  { Monitor.init with suspicious_users := {5} }

/-! ### Helper lemmas -/

theorem dequeAppend_length_le (l : List ℤ) (x : ℤ) : (dequeAppend l x).length ≤ 10 := by
  unfold dequeAppend
  by_cases h : 10 < (l ++ [x]).length
  · simp only [h, if_true, List.length_drop]
    omega
  · simp only [h, if_false]
    omega

theorem rateLimitStep_length_le (hist : List ℤ) (now : ℤ) (mx w : ℕ)
    (h : hist.length ≤ 10) : (rateLimitStep hist now mx w).2.length ≤ 10 := by
  unfold rateLimitStep
  by_cases hc : mx ≤ (hist.dropWhile (fun t => t < now - (w : ℤ) * 60)).length
  · simp only [hc, if_true]
    exact le_trans (List.dropWhile_sublist _).length_le h
  · simp [hc, dequeAppend_length_le]

theorem runRateLimit_length_le (calls : List (ℤ × ℕ × ℕ)) :
    ∀ hist : List ℤ, hist.length ≤ 10 → (runRateLimit hist calls).2.length ≤ 10 := by
  induction calls with
  | nil => intro hist h; exact h
  | cons c rest ih =>
    intro hist h
    obtain ⟨now, mx, w⟩ := c
    simpa [runRateLimit] using ih _ (rateLimitStep_length_le hist now mx w h)

theorem hasLead_iff (n : List Char) : ∀ h : List Char,
    hasLead n h = true ↔ ∃ r, h = n ++ r := by
  induction n with
  | nil => intro h; simp [hasLead]
  | cons a n ih =>
    intro h
    cases h with
    | nil => simp [hasLead]
    | cons b h2 =>
      by_cases hab : a = b
      · subst hab
        simp [hasLead, ih]
      · simp [hasLead, hab, Ne.symm hab]

theorem hasSub_iff (n : List Char) : ∀ h : List Char,
    hasSub n h = true ↔ ∃ l r, h = l ++ n ++ r := by
  intro h
  induction h with
  | nil =>
    cases n with
    | nil => simp [hasSub]
    | cons a n2 => simp [hasSub]
  | cons b h2 ih =>
    rw [hasSub, Bool.or_eq_true, hasLead_iff, ih]
    constructor
    · rintro (⟨r, hr⟩ | ⟨l, r, hr⟩)
      · exact ⟨[], r, by simpa using hr⟩
      · exact ⟨b :: l, r, by simp [hr]⟩
    · rintro ⟨l, r, hr⟩
      cases l with
      | nil => exact Or.inl ⟨r, by simpa using hr⟩
      | cons x l2 =>
        simp only [List.cons_append, List.cons.injEq] at hr
        exact Or.inr ⟨l2, r, hr.2⟩

theorem check_suspicious_fst (m : Monitor) (u : ℤ) (cmd : String) (now : ℤ) :
    (m.check_suspicious_activity u cmd now).1 =
      (decide (20 < (((m.request_patterns u) ++ [(cmd, now)]).filter
          (fun p => now - 3600 < p.2)).length) ||
       decide (10 < ((((m.request_patterns u) ++ [(cmd, now)]).filter
          (fun p => now - 3600 < p.2)).filter (fun p => now - 300 < p.2)).length)) := by
  unfold Monitor.check_suspicious_activity
  by_cases hv : 20 < (((m.request_patterns u) ++ [(cmd, now)]).filter
      (fun p => now - 3600 < p.2)).length
  · simp only [hv, if_true, decide_True, Bool.true_or]
  · by_cases hb : 10 < ((((m.request_patterns u) ++ [(cmd, now)]).filter
        (fun p => now - 3600 < p.2)).filter (fun p => now - 300 < p.2)).length
    · simp only [hv, hb, if_true, if_false, decide_True, decide_False, Bool.false_or]
    · simp only [hv, hb, if_false, decide_False, Bool.false_or]

theorem check_suspicious_patterns (m : Monitor) (u : ℤ) (cmd : String) (now : ℤ) :
    (m.check_suspicious_activity u cmd now).2.request_patterns u =
      ((m.request_patterns u) ++ [(cmd, now)]).filter (fun p => now - 3600 < p.2) := by
  unfold Monitor.check_suspicious_activity
  by_cases hv : 20 < (((m.request_patterns u) ++ [(cmd, now)]).filter
      (fun p => now - 3600 < p.2)).length
  · simp only [hv, if_true]
  · by_cases hb : 10 < ((((m.request_patterns u) ++ [(cmd, now)]).filter
        (fun p => now - 3600 < p.2)).filter (fun p => now - 300 < p.2)).length
    · simp only [hv, hb, if_true, if_false]
    · simp only [hv, hb, if_false]
      simp

theorem range_map_decide_shift (a n : ℕ) :
    (List.range (n + 1)).map (fun i => decide (20 < a + i + 1)) =
      decide (20 < a + 1) :: (List.range n).map (fun i => decide (20 < (a + 1) + i + 1)) := by
  rw [List.range_succ_eq_map, List.map_cons, List.map_map, List.cons_eq_cons]
  constructor
  · show decide (20 < a + 0 + 1) = decide (20 < a + 1)
    exact decide_eq_decide.mpr (by omega)
  · refine List.map_congr_left ?_
    intro i hi
    show decide (20 < a + (i + 1) + 1) = decide (20 < (a + 1) + i + 1)
    exact decide_eq_decide.mpr (by omega)

/-- Steady-state run of `check_suspicious_activity` for one user: as long as
every recorded entry stays within one hour of every later call (nothing is
ever pruned) and the trailing-5-minute count never exceeds 10 at any call
(the burst trigger never fires), the i-th call (0-based, with `done` entries
already stored) returns `true` exactly when the stored count exceeds 20, and
the stored patterns are exactly the old ones followed by all the calls. -/
theorem runSuspicious_steady (u : ℤ) :
    ∀ (calls : List (String × ℤ)) (m : Monitor) (done : List (String × ℤ)),
      m.request_patterns u = done →
      (∀ c ∈ calls, ∀ p ∈ done ++ calls, c.2 - 3600 < p.2) →
      (∀ pre c post, calls = pre ++ c :: post →
        ((done ++ pre ++ [c]).filter (fun q => c.2 - 300 < q.2)).length ≤ 10) →
      (runSuspicious u m calls).1 =
        (List.range calls.length).map (fun i => decide (20 < done.length + i + 1)) ∧
      (runSuspicious u m calls).2.request_patterns u = done ++ calls := by
  intro calls
  induction calls with
  | nil =>
    intro m done hpat hhour hburst
    exact ⟨rfl, by simpa [runSuspicious] using hpat⟩
  | cons c rest ih =>
    intro m done hpat hhour hburst
    obtain ⟨cmd, t⟩ := c
    have hkeep : ∀ p ∈ done ++ [(cmd, t)], t - 3600 < p.2 := by
      intro p hp
      rcases List.mem_append.mp hp with hp | hp
      · exact hhour (cmd, t) (by simp) p (List.mem_append.mpr (Or.inl hp))
      · have hpe : p = (cmd, t) := List.mem_singleton.mp hp
        subst hpe
        show t - 3600 < t
        omega
    have hfil : ((done ++ [(cmd, t)]).filter (fun p => t - 3600 < p.2)) =
        done ++ [(cmd, t)] :=
      List.filter_eq_self.mpr (fun a ha => by simpa using hkeep a ha)
    have hburst0 : ((done ++ [(cmd, t)]).filter (fun q => t - 300 < q.2)).length ≤ 10 := by
      have hzero := hburst [] (cmd, t) rest (by simp)
      simpa using hzero
    have hfst : (m.check_suspicious_activity u cmd t).1 =
        decide (20 < done.length + 1) := by
      rw [check_suspicious_fst, hpat, hfil]
      have hb : decide
          (10 < ((done ++ [(cmd, t)]).filter (fun p => t - 300 < p.2)).length) = false :=
        decide_eq_false (by omega)
      rw [hb, Bool.or_false]
      simp only [List.length_append, List.length_singleton]
    have hpat2 : (m.check_suspicious_activity u cmd t).2.request_patterns u =
        done ++ [(cmd, t)] := by
      rw [check_suspicious_patterns, hpat, hfil]
    have hhour2 : ∀ c2 ∈ rest, ∀ p ∈ (done ++ [(cmd, t)]) ++ rest,
        c2.2 - 3600 < p.2 := by
      intro c2 hc2 p hp
      apply hhour c2 (List.mem_cons_of_mem _ hc2)
      rw [List.append_assoc, List.singleton_append] at hp
      exact hp
    have hburst2 : ∀ pre c2 post, rest = pre ++ c2 :: post →
        (((done ++ [(cmd, t)]) ++ pre ++ [c2]).filter
          (fun q => c2.2 - 300 < q.2)).length ≤ 10 := by
      intro pre c2 post hEq
      have hsplit := hburst ((cmd, t) :: pre) c2 post (by rw [hEq]; rfl)
      simpa [List.append_assoc] using hsplit
    have ih2 := ih (m.check_suspicious_activity u cmd t).2 (done ++ [(cmd, t)])
      hpat2 hhour2 hburst2
    constructor
    · simp only [runSuspicious]
      rw [hfst, ih2.1]
      simp only [List.length_append, List.length_cons, List.length_nil, Nat.zero_add]
      rw [range_map_decide_shift]
    · simp only [runSuspicious]
      rw [ih2.2, List.append_assoc, List.singleton_append]

theorem check_suspicious_users_mono (m : Monitor) (u v : ℤ) (cmd : String)
    (now : ℤ) (h : v ∈ m.suspicious_users) :
    v ∈ (m.check_suspicious_activity u cmd now).2.suspicious_users := by
  unfold Monitor.check_suspicious_activity
  by_cases hv : 20 < (((m.request_patterns u) ++ [(cmd, now)]).filter
      (fun p => now - 3600 < p.2)).length
  · simp only [hv, if_true]
    exact Finset.mem_insert_of_mem h
  · by_cases hb : 10 < ((((m.request_patterns u) ++ [(cmd, now)]).filter
        (fun p => now - 3600 < p.2)).filter (fun p => now - 300 < p.2)).length
    · simp only [hv, hb, if_true, if_false]
      exact Finset.mem_insert_of_mem h
    · simp only [hv, hb, if_false]
      exact h

/-! ### Claim theorems -/

/-- C1: for a fresh user under the `(max_requests=3, window_minutes=1)`
policy of `refresh_command`, with the first four calls inside the same
one-minute window (times 0, 1, 2, 3 seconds): the first three evaluations
are allowed, the fourth is denied as rate-limited, `total_requests` after
the allow-allow-allow-deny sequence equals 3, and a fifth call one window
later (time 63, after the three accepted timestamps age out) is again
allowed — the denied call did not count toward the window. -/
theorem rate_limit_end_to_end :
    (runRefresh 1 Monitor.init [0, 1, 2, 3]).1 = [true, true, true, false] ∧
    (runRefresh 1 Monitor.init [0, 1, 2, 3]).2.total_requests = 3 ∧
    (refresh_command (runRefresh 1 Monitor.init [0, 1, 2, 3]).2 1 63).1 = true :=
  ⟨by decide, by decide, by decide⟩

/-- C2: whenever `is_rate_limited` returns `true`, the stored history of the user
is exactly the old history with a prefix of too-old timestamps removed: the
current timestamp is not appended, the new history is a suffix of the old
one, and every removed timestamp was strictly older than the window start. -/
theorem rejected_call_no_append (m : Monitor) (user_id now : ℤ) (mx w : ℕ)
    (h : (m.is_rate_limited user_id now mx w).1 = true) :
    (m.is_rate_limited user_id now mx w).2.user_requests user_id =
      (m.user_requests user_id).dropWhile (fun t => t < now - (w : ℤ) * 60) ∧
    m.user_requests user_id =
      (m.user_requests user_id).takeWhile (fun t => t < now - (w : ℤ) * 60) ++
        (m.is_rate_limited user_id now mx w).2.user_requests user_id ∧
    ∀ t ∈ (m.user_requests user_id).takeWhile (fun t => t < now - (w : ℤ) * 60),
      t < now - (w : ℤ) * 60 := by
  unfold Monitor.is_rate_limited rateLimitStep at h ⊢
  by_cases hc : mx ≤
      ((m.user_requests user_id).dropWhile
        (fun t => t < now - (w : ℤ) * 60)).length
  · refine ⟨by simp [hc], ?_, ?_⟩
    · simp [hc]
    · intro t ht
      simpa using List.mem_takeWhile_imp ht
  · simp [hc] at h

/-- Hypothesis instantiation for `rejected_call_no_append`: for the monitor
holding `[-100, 0]` for user 1, the call at time 30 with
`(max_requests=1, window_minutes=1)` is rejected, and the rejected call left
exactly `[0]` behind. -/
theorem rejected_call_no_append_witness :
    (frameMon.is_rate_limited 1 30 1 1).1 = true ∧
    ((frameMon.is_rate_limited 1 30 1 1).2.user_requests 1 =
        (frameMon.user_requests 1).dropWhile (fun t => t < 30 - (1 : ℤ) * 60) ∧
      frameMon.user_requests 1 =
        (frameMon.user_requests 1).takeWhile (fun t => t < 30 - (1 : ℤ) * 60) ++
          (frameMon.is_rate_limited 1 30 1 1).2.user_requests 1 ∧
      ∀ t ∈ (frameMon.user_requests 1).takeWhile (fun t => t < 30 - (1 : ℤ) * 60),
        t < 30 - (1 : ℤ) * 60) :=
  ⟨by decide, rejected_call_no_append frameMon 1 30 1 1 (by decide)⟩

/-- C3 counterexample: eleven accepted calls at times 0,…,10 with
`(max_requests=12, window_minutes=1)` — none is rate-limited, timestamp 0 is
still inside the active one-minute window at the last call (`¬ 0 < 10 - 60`),
yet 0 is no longer present in the history: the `deque(maxlen=10)` count cap
evicted it, refuting “timestamps are evicted only by aging out of the
window, never by a count cap”. -/
theorem history_count_cap_cex :
    (runRateLimit [] ((List.range 11).map (fun i => ((i : ℤ), 12, 1)))).1 =
      List.replicate 11 false ∧
    (0 : ℤ) ∉ (runRateLimit [] ((List.range 11).map (fun i => ((i : ℤ), 12, 1)))).2 ∧
    ¬ ((0 : ℤ) < 10 - (1 : ℤ) * 60) :=
  ⟨by decide, by decide, by decide⟩

/-- C3 amended: the throttle history of a user is bounded by the time window
*and* by a fixed count cap of 10 (the `deque(maxlen=10)`).  After any call
sequence starting from a fresh user the history holds at most 10
timestamps; a single accepted call keeps the in-window timestamps and
appends the current one when fewer than 10 are in the window, and
additionally evicts the oldest in-window timestamp when 10 are already
present. -/
theorem history_count_cap_amended :
    (∀ calls : List (ℤ × ℕ × ℕ), (runRateLimit [] calls).2.length ≤ 10) ∧
    ∀ (hist : List ℤ) (now : ℤ) (mx w : ℕ), hist.length ≤ 10 →
      (rateLimitStep hist now mx w).2.length ≤ 10 ∧
      ((rateLimitStep hist now mx w).1 = false →
        (rateLimitStep hist now mx w).2 =
          if (hist.dropWhile (fun t => t < now - (w : ℤ) * 60)).length < 10
          then hist.dropWhile (fun t => t < now - (w : ℤ) * 60) ++ [now]
          else (hist.dropWhile (fun t => t < now - (w : ℤ) * 60)).tail ++ [now]) := by
  refine ⟨fun calls => runRateLimit_length_le calls [] (by simp), ?_⟩
  intro hist now mx w hlen
  refine ⟨rateLimitStep_length_le hist now mx w hlen, ?_⟩
  intro hfalse
  have hclean : (hist.dropWhile (fun t => t < now - (w : ℤ) * 60)).length ≤ 10 :=
    le_trans (List.dropWhile_sublist _).length_le hlen
  by_cases hc : mx ≤ (hist.dropWhile (fun t => t < now - (w : ℤ) * 60)).length
  · have htrue : (rateLimitStep hist now mx w).1 = true := by
      unfold rateLimitStep
      simp [hc]
    rw [htrue] at hfalse
    simp at hfalse
  · have hstepeq : (rateLimitStep hist now mx w).2 =
        dequeAppend (hist.dropWhile (fun t => t < now - (w : ℤ) * 60)) now := by
      unfold rateLimitStep
      simp [hc]
    rw [hstepeq]
    set cleaned := hist.dropWhile (fun t => t < now - (w : ℤ) * 60) with hdef
    by_cases hfull : cleaned.length < 10
    · have h10 : ¬ (10 < (cleaned ++ [now]).length) := by
        simp only [List.length_append, List.length_singleton]
        omega
      simp only [dequeAppend]
      rw [if_neg h10, if_pos hfull]
    · have h10 : 10 < (cleaned ++ [now]).length := by
        simp only [List.length_append, List.length_singleton]
        omega
      have hdrop : (cleaned ++ [now]).length - 10 = 1 := by
        simp only [List.length_append, List.length_singleton]
        omega
      simp only [dequeAppend]
      rw [if_pos h10, if_neg hfull, hdrop,
        List.drop_append_of_le_length (by omega), List.drop_one]

/-- Hypothesis instantiation for `history_count_cap_amended`: the accepted
call at time 5 on the history `[0, 1, 2]` (three in-window entries, below
the cap) stores `[0, 1, 2, 5]`. -/
theorem history_count_cap_amended_witness :
    (rateLimitStep [0, 1, 2] 5 9 1).2.length ≤ 10 ∧
    ((rateLimitStep [0, 1, 2] 5 9 1).1 = false →
      (rateLimitStep [0, 1, 2] 5 9 1).2 =
        if (([0, 1, 2] : List ℤ).dropWhile (fun t => t < 5 - (1 : ℤ) * 60)).length < 10
        then (([0, 1, 2] : List ℤ).dropWhile (fun t => t < 5 - (1 : ℤ) * 60)) ++ [5]
        else (([0, 1, 2] : List ℤ).dropWhile (fun t => t < 5 - (1 : ℤ) * 60)).tail ++ [5]) :=
  history_count_cap_amended.2 [0, 1, 2] 5 9 1 (by decide)

/-- C4: starting from a fresh user, after any sequence of `is_rate_limited`
calls the per-user deque holds at most 10 timestamps, so any call made with
`max_requests ≥ 11` returns `false` — the in-window count can never reach
the limit, and no request is ever rate-limited at such a call site.  Stated
both on the deque and at monitor level. -/
theorem high_limit_never_limited (calls : List (ℤ × ℕ × ℕ)) (now : ℤ) (mx w : ℕ)
    (h : 11 ≤ mx) :
    (rateLimitStep (runRateLimit [] calls).2 now mx w).1 = false ∧
    ∀ (m : Monitor) (u : ℤ), m.user_requests u = (runRateLimit [] calls).2 →
      (m.is_rate_limited u now mx w).1 = false := by
  have hlen : (runRateLimit [] calls).2.length ≤ 10 :=
    runRateLimit_length_le calls [] (by simp)
  have hstep : (rateLimitStep (runRateLimit [] calls).2 now mx w).1 = false := by
    unfold rateLimitStep
    have hd : ((runRateLimit [] calls).2.dropWhile
        (fun t => t < now - (w : ℤ) * 60)).length ≤ 10 :=
      le_trans (List.dropWhile_sublist _).length_le hlen
    have hc : ¬ (mx ≤ ((runRateLimit [] calls).2.dropWhile
        (fun t => t < now - (w : ℤ) * 60)).length) := by omega
    simp [hc]
  refine ⟨hstep, fun m u hm => ?_⟩
  unfold Monitor.is_rate_limited
  rw [hm]
  exact hstep

/-- Hypothesis instantiation for `high_limit_never_limited`: after five
back-to-back calls at time 0, a call with `max_requests = 11` is still not
rate-limited. -/
theorem high_limit_never_limited_witness :
    (rateLimitStep (runRateLimit [] (List.replicate 5 ((0 : ℤ), 3, 1))).2 0 11 1).1 = false :=
  (high_limit_never_limited (List.replicate 5 ((0 : ℤ), 3, 1)) 0 11 1 (by decide)).1

/-- C6: `check_suspicious_activity` returns `true` whenever, after the
current action is recorded, more than 10 of the entries of the user fall within
the trailing 5-minute slice — i.e. on the 11th action inside such a slice —
with no hypothesis at all on the trailing-hour count. -/
theorem burst_trigger (m : Monitor) (u : ℤ) (cmd : String) (now : ℤ)
    (h : 10 < (((m.request_patterns u) ++ [(cmd, now)]).filter
        (fun p => now - 300 < p.2)).length) :
    (m.check_suspicious_activity u cmd now).1 = true := by
  rw [check_suspicious_fst]
  have hre : (((m.request_patterns u) ++ [(cmd, now)]).filter
        (fun p => now - 3600 < p.2)).filter (fun p => now - 300 < p.2) =
      ((m.request_patterns u) ++ [(cmd, now)]).filter (fun p => now - 300 < p.2) := by
    rw [List.filter_filter]
    apply List.filter_congr
    intro p hp
    by_cases h5 : now - 300 < p.2
    · have h36 : now - 3600 < p.2 := by omega
      simp [h5, h36]
    · simp [h5]
  rw [hre]
  simp only [h, decide_True, Bool.or_true]

/-- Hypothesis instantiation for `burst_trigger`: user 1 already has 10
entries at time 0; the 11th action at time 0 puts 11 entries inside the
trailing 5 minutes and the call returns `true`. -/
theorem burst_trigger_witness :
    10 < (((burstMon.request_patterns 1) ++ [("y", 0)]).filter
        (fun p : String × ℤ => (0 : ℤ) - 300 < p.2)).length ∧
    (burstMon.check_suspicious_activity 1 "y" 0).1 = true :=
  ⟨by decide, burst_trigger burstMon 1 "y" 0 (by decide)⟩

/-- C7: the suspicion set is a one-way latch.  Every state-updating
operation of the monitor preserves membership in `suspicious_users`:
`is_rate_limited`, `check_suspicious_activity` (even when it returns
`false`), `block_user`, and `log_security_stats`.  The remaining operations
(`is_user_blocked`, `validate_user_data`) are embedded as pure functions
that return a boolean without producing a new state, so they cannot remove
anything either. -/
theorem suspicion_latch (m : Monitor) (v user_id now : ℤ) (mx w : ℕ)
    (cmd reason : String) (h : v ∈ m.suspicious_users) :
    v ∈ (m.is_rate_limited user_id now mx w).2.suspicious_users ∧
    v ∈ (m.check_suspicious_activity user_id cmd now).2.suspicious_users ∧
    v ∈ (m.block_user user_id reason).suspicious_users ∧
    v ∈ (m.log_security_stats).suspicious_users := by
  refine ⟨?_, check_suspicious_users_mono m user_id v cmd now h, ?_, h⟩
  · unfold Monitor.is_rate_limited
    exact h
  · unfold Monitor.block_user
    exact h

/-- Hypothesis instantiation for `suspicion_latch`: user 5 is flagged in
`latchMon` and stays flagged across all four operations. -/
theorem suspicion_latch_witness :
    (5 : ℤ) ∈ latchMon.suspicious_users ∧
    ((5 : ℤ) ∈ (latchMon.is_rate_limited 1 0 3 1).2.suspicious_users ∧
      (5 : ℤ) ∈ (latchMon.check_suspicious_activity 1 "x" 0).2.suspicious_users ∧
      (5 : ℤ) ∈ (latchMon.block_user 1 "r").suspicious_users ∧
      (5 : ℤ) ∈ (latchMon.log_security_stats).suspicious_users) :=
  ⟨by decide, suspicion_latch latchMon 5 1 0 3 1 "x" "r" (by decide)⟩

/-- C8: blocking the same user twice is idempotent for membership — the user
is blocked after the first call and stays blocked, and the blocked set is
unchanged by the second call — while each of the two calls increments
`blocked_requests` by exactly 1, so it rises by 2 in total. -/
theorem block_user_idempotent (m : Monitor) (u : ℤ) (r1 r2 : String) :
    (m.block_user u r1).is_user_blocked u = true ∧
    ((m.block_user u r1).block_user u r2).is_user_blocked u = true ∧
    ((m.block_user u r1).block_user u r2).blocked_users =
      (m.block_user u r1).blocked_users ∧
    (m.block_user u r1).blocked_requests = m.blocked_requests + 1 ∧
    ((m.block_user u r1).block_user u r2).blocked_requests = m.blocked_requests + 2 := by
  unfold Monitor.block_user Monitor.is_user_blocked
  refine ⟨by simp, by simp, by simp [Finset.insert_idem], rfl, rfl⟩

/-- C5 counterexample: 21 actions of a single user all at the same instant —
certainly all inside one hour — do not yield twenty `false` verdicts
followed by one `true`: the burst trigger (more than 10 entries in the
trailing 5 minutes) fires from the 11th call on, so the verdicts are ten
`false` followed by eleven `true`.  The claim as stated fails for this
within-one-hour sequence. -/
theorem hourly_volume_cex :
    (runSuspicious 1 Monitor.init (List.replicate 21 ("x", 0))).1 =
      List.replicate 10 false ++ List.replicate 11 true ∧
    (runSuspicious 1 Monitor.init (List.replicate 21 ("x", 0))).1 ≠
      List.replicate 20 false ++ [true] :=
  ⟨by decide, by decide⟩

/-- C5 amended: for a single user with 21 actions that all fall within one
hour of each other *and* never put more than 10 entries inside the trailing
5-minute slice of any call (so the burst trigger stays quiet),
`check_suspicious_activity` returns `false` on each of the first 20 calls
and `true` on the 21st — the volume trigger fires exactly when the
trailing-hour entry count exceeds 20. -/
theorem hourly_volume_amended (u : ℤ) (calls : List (String × ℤ))
    (hlen : calls.length = 21)
    (hhour : ∀ c ∈ calls, ∀ p ∈ calls, c.2 - 3600 < p.2)
    (hburst : ∀ i : Fin calls.length,
      ((calls.take (i.1 + 1)).filter
        (fun q => (calls.get i).2 - 300 < q.2)).length ≤ 10) :
    (runSuspicious u Monitor.init calls).1 = List.replicate 20 false ++ [true] := by
  have hb : ∀ pre c post, calls = pre ++ c :: post →
      (((([] : List (String × ℤ)) ++ pre ++ [c]).filter
        (fun q => c.2 - 300 < q.2)).length ≤ 10) := by
    intro pre c post hEq
    subst hEq
    have hidx : pre.length < (pre ++ c :: post).length := by simp
    have hget : (pre ++ c :: post).get ⟨pre.length, hidx⟩ = c := by
      rw [List.get_eq_getElem, List.getElem_append_right (Nat.le_refl _)]
      simp
    have htake : (pre ++ c :: post).take (pre.length + 1) = pre ++ [c] := by
      rw [List.take_append_eq_append_take]
      simp [List.take_of_length_le]
    have hbi := hburst ⟨pre.length, hidx⟩
    rw [hget, htake] at hbi
    simpa using hbi
  have key := runSuspicious_steady u calls Monitor.init [] rfl (by simpa using hhour) hb
  rw [key.1, hlen]
  decide

/-- Hypothesis instantiation for `hourly_volume_amended`: 21 actions spaced
170 seconds apart span 3400 seconds (inside one hour) and never put more
than 2 entries in a 5-minute slice; the verdicts are twenty `false` and then
`true`. -/
theorem hourly_volume_amended_witness :
    (runSuspicious 1 Monitor.init
        ((List.range 21).map (fun i => ("x", (i : ℤ) * 170)))).1 =
      List.replicate 20 false ++ [true] :=
  hourly_volume_amended 1 ((List.range 21).map (fun i => ("x", (i : ℤ) * 170)))
    (by decide) (by decide) (by decide)

/-- C9: `validate_user_data` returns `false` for an absent identity, `false`
for any identity marked as a bot, `false` for any non-bot identity whose
username contains one of the denylist substrings
{"bot","spam","scam","hack","premium","gift"} case-insensitively (the
substring condition is expressed as a list decomposition of the lowercased
username), `false` on the concrete handle "spambot123", and `true` on the
plain handle "alice_42".  The embedding is a total function, so the
operation never raises. -/
theorem validate_user_data_spec :
    validate_user_data none = false ∧
    (∀ u : TgUser, u.is_bot = true → validate_user_data (some u) = false) ∧
    (∀ (u : TgUser) (name : String), u.is_bot = false → u.username = some name →
      (∃ p ∈ suspicious_patterns, ∃ l r,
        name.toList.map Char.toLower = l ++ p.toList ++ r) →
      validate_user_data (some u) = false) ∧
    validate_user_data (some ⟨7, false, some "spambot123"⟩) = false ∧
    validate_user_data (some ⟨8, false, some "alice_42"⟩) = true := by
  refine ⟨rfl, ?_, ?_, by decide, by decide⟩
  · intro u hb
    unfold validate_user_data
    simp [hb]
  · intro u name hb hn hex
    unfold validate_user_data
    simp only [hb, Bool.false_eq_true, if_false, hn]
    by_cases hname : name = ""
    · exfalso
      obtain ⟨p, hp, l, r, heq⟩ := hex
      have hplen : p.toList ≠ [] := by fin_cases hp <;> decide
      have h0 : (("" : String).toList.map Char.toLower) = [] := by decide
      rw [hname, h0] at heq
      have h1 := heq.symm
      rw [List.append_eq_nil] at h1
      exact hplen (List.append_eq_nil.mp h1.1).2
    · rw [if_neg hname]
      have hany : suspicious_patterns.any
          (fun p => hasSub p.toList (name.toList.map Char.toLower)) = true := by
        rw [List.any_eq_true]
        obtain ⟨p, hp, l, r, heq⟩ := hex
        exact ⟨p, hp, (hasSub_iff _ _).mpr ⟨l, r, heq⟩⟩
      rw [if_pos hany]

/-- Hypothesis instantiation for `validate_user_data_spec`: a bot identity
is rejected, and the non-bot handle "BigGIFTbox" is rejected because its
lowercasing decomposes around the denylist entry "gift". -/
theorem validate_user_data_spec_witness :
    validate_user_data (some ⟨9, true, some "alice"⟩) = false ∧
    validate_user_data (some ⟨10, false, some "BigGIFTbox"⟩) = false :=
  ⟨validate_user_data_spec.2.1 ⟨9, true, some "alice"⟩ rfl,
   validate_user_data_spec.2.2.1 ⟨10, false, some "BigGIFTbox"⟩ "BigGIFTbox" rfl rfl
     ⟨"gift", by decide, "big".toList, "box".toList, by decide⟩⟩

/-- C10: for a non-bot identity whose username is absent (`None`) or empty
(`""`, falsy in Python), the denylist check is skipped entirely and
`validate_user_data` returns `true`. -/
theorem missing_handle_accepted (u : TgUser) (hb : u.is_bot = false)
    (hn : u.username = none ∨ u.username = some "") :
    validate_user_data (some u) = true := by
  unfold validate_user_data
  rcases hn with hn | hn <;> simp [hb, hn]

/-- Hypothesis instantiation for `missing_handle_accepted`: both a `None`
username and an empty username are accepted for a non-bot identity. -/
theorem missing_handle_accepted_witness :
    validate_user_data (some ⟨11, false, none⟩) = true ∧
    validate_user_data (some ⟨12, false, some ""⟩) = true :=
  ⟨missing_handle_accepted ⟨11, false, none⟩ rfl (Or.inl rfl),
   missing_handle_accepted ⟨12, false, some ""⟩ rfl (Or.inr rfl)⟩

end TBot
